import Mathlib

/-!
Verification development for the mqttTester repository.

The two programs under study are `src/inflighttester.js` (inflight-message
delivery verification across a forced subscriber disconnect/reconnect) and
`src/sharedsubtester.js` (shared-subscription exactly-once verification).
Strings are modelled as `List Char`; JavaScript `Set` objects are modelled as
insertion-ordered duplicate-free lists; JavaScript `Map` objects are modelled
as association lists; the asynchronous control flow of a run is modelled as an
event trace whose phase structure mirrors the `await` barriers of the source.
-/

/-- A single decimal digit character, as produced by JavaScript number
formatting (template literals such as `MSG from ${clientId} #${seq}`). -/
def digitChar : Nat → Char
  | 0 => '0'
  | 1 => '1'
  | 2 => '2'
  | 3 => '3'
  | 4 => '4'
  | 5 => '5'
  | 6 => '6'
  | 7 => '7'
  | 8 => '8'
  | _ => '9'

/-- Fuelled decimal rendering; with fuel at least 1 and the number below
`10 ^ fuel` this agrees with JavaScript `String(n)`. -/
def toDecimalAux : Nat → Nat → List Char
  | 0, _ => []
  | fuel + 1, n =>
    if n < 10 then [digitChar n]
    else toDecimalAux fuel (n / 10) ++ [digitChar (n % 10)]

/-- Decimal rendering of a natural number, the model of JavaScript `${n}`
string interpolation used throughout both testers. -/
def natToDecimal (n : Nat) : List Char :=
  toDecimalAux (n + 1) n

/-- The literal character run `MSG from ` that starts every fingerprinted
payload (`inflighttester.js` line 288, `sharedsubtester.js` line 296). -/
def msgFromChars : List Char := ['M', 'S', 'G', ' ', 'f', 'r', 'o', 'm', ' ']

/-- The literal character run `pub-`, the publisher identity pattern head. -/
def pubDashChars : List Char := ['p', 'u', 'b', '-']

/-- The literal character run `sub-`, the subscriber identity pattern head. -/
def subDashChars : List Char := ['s', 'u', 'b', '-']

/-- Publisher client identity `pub-<p>` (`inflighttester.js` line 247). -/
def pubIdChars (p : Nat) : List Char := pubDashChars ++ natToDecimal p

/-- Subscriber client identity `sub-<i>` (`inflighttester.js` line 144). -/
def subIdChars (i : Nat) : List Char := subDashChars ++ natToDecimal i

/-- Payload built by every publisher: `MSG from <clientId> #<seq>`
(`inflighttester.js` line 288, `sharedsubtester.js` line 296). -/
def payloadFor (pubId : List Char) (seq : Nat) : List Char :=
  msgFromChars ++ pubId ++ ' ' :: '#' :: natToDecimal seq

/-- Strips an expected leading character run, the model of the anchored
literal part of the regular expression `^MSG from (pub-\d+) #(\d+)$`. -/
def dropLeading : List Char → List Char → Option (List Char)
  | [], s => some s
  | _ :: _, [] => none
  | p :: ps, c :: cs => if p = c then dropLeading ps cs else none

/-- The message-handler parse of a payload against the pattern
`^MSG from (pub-\d+) #(\d+)$` (`inflighttester.js` line 205): on success it
returns the captured publisher identity (including the `pub-` head) and the
captured sequence digit run. The greedy `\d+` groups are modelled by
`takeWhile`, which is exact here because each group is followed by a
non-digit character (or the end anchor). -/
def parsePayload (s : List Char) : Option (List Char × List Char) :=
  match dropLeading (msgFromChars ++ pubDashChars) s with
  | none => none
  | some r1 =>
    let ds := r1.takeWhile Char.isDigit
    let r2 := r1.dropWhile Char.isDigit
    if ds.isEmpty then none
    else
      match r2 with
      | ' ' :: '#' :: r3 =>
        let ds2 := r3.takeWhile Char.isDigit
        if ds2.isEmpty then none
        else if (r3.dropWhile Char.isDigit).isEmpty then
          some (pubDashChars ++ ds, ds2)
        else none
      | _ => none

/-- JavaScript `String.prototype.trim` on a character list (the handler does
`payloadBuf.toString().trim()`, `inflighttester.js` line 203). -/
def trimChars (s : List Char) : List Char :=
  ((s.dropWhile Char.isWhitespace).reverse.dropWhile Char.isWhitespace).reverse

/-- The ledger fingerprint key `<pubId>:<seq>` recorded for a parsed payload
(`inflighttester.js` line 209). -/
def fingerprintKey (pubId : List Char) (seqDigits : List Char) : List Char :=
  pubId ++ ':' :: seqDigits

/-- `Set.add` on a JavaScript `Set` modelled as an insertion-ordered list:
appends the key when absent, otherwise leaves the set unchanged
(`inflighttester.js` line 211). -/
def recordKey (received : List (List Char)) (k : List Char) : List (List Char) :=
  if k ∈ received then received else received ++ [k]

/-- The non-shared message handler (`inflighttester.js` lines 202-219):
trim the payload, parse it against the fingerprint pattern, and record
either the fingerprint key `<pubId>:<seq>` or, on a parse failure, the raw
payload itself as a fallback key. -/
def handleMessage (received : List (List Char)) (payloadBuf : List Char) :
    List (List Char) :=
  let payload := trimChars payloadBuf
  match parsePayload payload with
  | some (pubId, seqDigits) => recordKey received (fingerprintKey pubId seqDigits)
  | none => recordKey received payload

/-- Status column of a CSV report row (`Pass` / `Fail`). -/
inductive RowStatus
  | pass
  | fail
deriving DecidableEq, Repr

/-- Per-publisher missing sequence numbers for one subscriber
(`inflighttester.js` lines 403-412): the sequence numbers `1..m` whose
fingerprint key `<pubId>:<seq>` is absent from the subscriber's received
set. -/
def missingByPublisher (received : List (List Char)) (pubId : List Char)
    (m : Nat) : List Nat :=
  (List.range' 1 m).filter
    (fun seq => !(decide (fingerprintKey pubId (natToDecimal seq) ∈ received)))

/-- One subscriber's verdict (`inflighttester.js` line 415): pass when the
per-publisher missing list is empty for every publisher. -/
def inflightSubPass (received : List (List Char)) (pubIds : List (List Char))
    (m : Nat) : Bool :=
  pubIds.all (fun pid => (missingByPublisher received pid m).isEmpty)

/-- One CSV report row of the inflight tester (`inflighttester.js` lines
438-443). -/
structure InflightRow where
  subscriber : List Char
  publisher : List Char
  index : Nat
  status : RowStatus
deriving DecidableEq, Repr

/-- The CSV rows built for one subscriber (`inflighttester.js` lines
434-445): one row per publisher and sequence, status `Pass` exactly when the
fingerprint key is in the subscriber's received set. -/
def inflightRowsFor (sub : List Char) (received : List (List Char))
    (pubIds : List (List Char)) (m : Nat) : List InflightRow :=
  pubIds.flatMap (fun pid =>
    (List.range' 1 m).map (fun seq =>
      { subscriber := sub, publisher := pid, index := seq,
        status :=
          if fingerprintKey pid (natToDecimal seq) ∈ received then RowStatus.pass
          else RowStatus.fail }))

/-- The publisher identities of a run, `pub-0 .. pub-(P-1)`
(`inflighttester.js` lines 246-247). -/
def inflightPubIds (numPublishers : Nat) : List (List Char) :=
  (List.range numPublishers).map pubIdChars

/-- The full CSV report of the inflight tester (`inflighttester.js` lines
390-446): subscriber by subscriber, reading that subscriber's received set
from the ledger. -/
def inflightCsvRows (numSubs numPublishers m : Nat)
    (ledger : List Char → List (List Char)) : List InflightRow :=
  (List.range numSubs).flatMap (fun i =>
    inflightRowsFor (subIdChars i) (ledger (subIdChars i))
      (inflightPubIds numPublishers) m)

/-- The overall verdict of the inflight tester (`inflighttester.js` lines
388, 415-416): pass when every subscriber passes. -/
def inflightOverallPass (numSubs numPublishers m : Nat)
    (ledger : List Char → List (List Char)) : Bool :=
  (List.range numSubs).all (fun i =>
    inflightSubPass (ledger (subIdChars i)) (inflightPubIds numPublishers) m)

/-- Following the spec's words (section 3, Expected Universe): the set of all
fingerprints `pub_i:seq` for the configured publishers and `1 ≤ seq ≤ m`. -/
def expectedUniverse (pubIds : List (List Char)) (m : Nat) : List (List Char) :=
  pubIds.flatMap (fun pid =>
    (List.range' 1 m).map (fun seq => fingerprintKey pid (natToDecimal seq)))

/-- Following the spec's words (section 4.1, `missingFor`): the subset of the
expected universe absent from a subscriber's received set. -/
def missingFor (received : List (List Char)) (expected : List (List Char)) :
    List (List Char) :=
  expected.filter (fun f => !(decide (f ∈ received)))

/-- Key lookup on a JavaScript `Map` modelled as an association list
(`recvMap.has(expected)`, `sharedsubtester.js` line 395). -/
def hasKey (recvMap : List (List Char × List (List Char))) (k : List Char) :
    Bool :=
  recvMap.any (fun e => e.1 = k)

/-- The missing expected payloads of one shared group
(`sharedsubtester.js` lines 391-399): payloads `MSG from pub-<p> #<seq>`
that are not a key of the group's receiver map. -/
def sharedGroupMissing (recvMap : List (List Char × List (List Char)))
    (pubIds : List (List Char)) (m : Nat) : List (List Char) :=
  pubIds.flatMap (fun pid =>
    ((List.range' 1 m).filter
      (fun seq => !(hasKey recvMap (payloadFor pid seq)))).map
      (fun seq => payloadFor pid seq))

/-- The group verdict of the shared-subscription tester
(`sharedsubtester.js` lines 388-413): `groupPass` starts true, is cleared
when any expected payload is missing, and is cleared when any receiver list
in the map has length other than 1. -/
def sharedGroupPass (recvMap : List (List Char × List (List Char)))
    (pubIds : List (List Char)) (m : Nat) : Bool :=
  (sharedGroupMissing recvMap pubIds m).isEmpty &&
    recvMap.all (fun e => e.2.length = 1)

/-- Following the spec's words (section 4.1, `duplicatesInGroup`): the
fingerprints whose receiver list length differs from 1. -/
def duplicatesInGroup (recvMap : List (List Char × List (List Char))) :
    List (List Char) :=
  (recvMap.filter (fun e => e.2.length ≠ 1)).map (fun e => e.1)

/-- A concrete shared-group receiver map for the spec's end-to-end shape:
1 publisher, 9 messages, each payload received by exactly one subscriber. -/
def exSharedMap : List (List Char × List (List Char)) :=
  (List.range' 1 9).map (fun seq => (payloadFor (pubIdChars 0) seq, [subIdChars 0]))

/-- The configuration surface of `inflighttester.js` (yargs options, lines
11-69). These are all the run parameters the program recognizes. -/
structure InflightConfig where
  broker : String
  username : Option String
  password : Option String
  topic : String
  qos : Nat
  sessionExpiry : Nat
  subs : Nat
  publishers : Nat
  messagesPerPub : Nat
  logFile : String
  csvFile : String

/-- The configuration surface of `sharedsubtester.js` (yargs options, lines
11-75). -/
structure SharedConfig where
  broker : String
  username : Option String
  password : Option String
  topic : String
  qos : Nat
  groups : Nat
  subsPerGroup : Nat
  publishers : Nat
  messagesPerPub : Nat
  edgeDisconnect : Bool
  logFile : String
  csvFile : String

/-- Total expected messages of an inflight run (`inflighttester.js` line
117). -/
def inflightTotalMessages (c : InflightConfig) : Nat :=
  c.publishers * c.messagesPerPub

/-- The fault-injection trigger count of the inflight tester
(`inflighttester.js` line 118): `Math.floor(totalMessages / 5)`. -/
def inflightHalfwayCount (c : InflightConfig) : Nat :=
  inflightTotalMessages c / 5

/-- Total expected messages of a shared run (`sharedsubtester.js` line
289). -/
def sharedTotalMessages (c : SharedConfig) : Nat :=
  c.publishers * c.messagesPerPub

/-- The edge-case trigger count of the shared tester (`sharedsubtester.js`
line 291): `Math.floor(totalMessages / 2)`. -/
def sharedHalfwayCount (c : SharedConfig) : Nat :=
  sharedTotalMessages c / 2

/-- A default-valued inflight configuration (the yargs defaults of
`inflighttester.js`), reused as a concrete base point by witnesses. -/
def defaultInflightConfig : InflightConfig :=
  { broker := "mqtt://10.17.10.222:1883", username := none, password := none,
    topic := "testtopic/test", qos := 2, sessionExpiry := 5, subs := 2,
    publishers := 2, messagesPerPub := 20,
    logFile := "./logs/inflight-test.log",
    csvFile := "./reports/inflight-report.csv" }

/-- A default-valued shared configuration (the yargs defaults of
`sharedsubtester.js`). -/
def defaultSharedConfig : SharedConfig :=
  { broker := "mqtt://10.17.10.222:1883", username := none, password := none,
    topic := "test/topic", qos := 2, groups := 1, subsPerGroup := 2,
    publishers := 1, messagesPerPub := 10, edgeDisconnect := false,
    logFile := "./logs/shared-test.log",
    csvFile := "./reports/shared-report.csv" }

/-- An observable step of the straight-line setup phase of a tester run, up
to the start of publishing. -/
inductive SetupAction
  | logError (msg : String)
  | exitProc (code : Nat)
  | logConfig
  | mkLedger (buckets : Nat)
  | connectSub (clientId : List Char)
  | awaitSubackBarrier
  | connectPub (clientId : List Char)
  | awaitConnectBarrier
deriving DecidableEq

/-- The inflight validation message (`inflighttester.js` line 121). -/
def inflightValidationMsg : String :=
  "Error: --subs and --publishers must both be >= 1."

/-- The shared validation message (`sharedsubtester.js` lines 126-128). -/
def sharedValidationMsg : String :=
  "Error: --groups, --subsPerGroup, and --publishers must all be >= 1."

/-- The straight-line setup phase of `runInflightTest` (`inflighttester.js`
lines 117-271): validate the configuration (exiting with code 1 on a
violation, before anything else), then log the configuration, create the
ledger, connect and subscribe every subscriber, await the SUBACK barrier,
connect every publisher and await the connect barrier. -/
def inflightSetupActions (c : InflightConfig) : List SetupAction :=
  if c.subs < 1 || c.publishers < 1 then
    [SetupAction.logError inflightValidationMsg, SetupAction.exitProc 1]
  else
    SetupAction.logConfig ::
    SetupAction.mkLedger c.subs ::
    (((List.range c.subs).map (fun i => SetupAction.connectSub (subIdChars i))) ++
      SetupAction.awaitSubackBarrier ::
      (((List.range c.publishers).map
        (fun p => SetupAction.connectPub (pubIdChars p))) ++
        [SetupAction.awaitConnectBarrier]))

/-- The straight-line setup phase of `runSharedSubscriptionTest`
(`sharedsubtester.js` lines 124-282); group subscriber `s` of group `g` has
client identity `Group<g+1>-<s>`; for the purposes of the setup trace the
subscribers are listed group by group. -/
def sharedSubClientId (g s : Nat) : List Char :=
  ['G', 'r', 'o', 'u', 'p'] ++ natToDecimal (g + 1) ++ '-' :: natToDecimal s

/-- Setup actions of the shared tester (`sharedsubtester.js` lines
124-282). -/
def sharedSetupActions (c : SharedConfig) : List SetupAction :=
  if c.groups < 1 || c.subsPerGroup < 1 || c.publishers < 1 then
    [SetupAction.logError sharedValidationMsg, SetupAction.exitProc 1]
  else
    SetupAction.logConfig ::
    SetupAction.mkLedger c.groups ::
    (((List.range c.groups).flatMap (fun g =>
      (List.range c.subsPerGroup).map
        (fun s => SetupAction.connectSub (sharedSubClientId g s)))) ++
      SetupAction.awaitSubackBarrier ::
      (((List.range c.publishers).map
        (fun p => SetupAction.connectPub (pubIdChars p))) ++
        [SetupAction.awaitConnectBarrier]))

/-- The process exit of `runInflightTest` (`inflighttester.js` lines
489-502): a completed run — one that produced its verdict and wrote its
report — always exits with code 0, whatever the overall verdict was; the
catch path around the whole run exits with code 1. The `Except` value is the
run's outcome: `ok overallPass` for a completed run carrying its verdict,
`error` for a harness error caught at line 494. -/
def inflightProcessExit (outcome : Except String Bool) : Nat :=
  match outcome with
  | Except.ok _ => 0
  | Except.error _ => 1

/-- The process exit of `runSharedSubscriptionTest` (`sharedsubtester.js`
lines 531-544), with the same structure. -/
def sharedProcessExit (outcome : Except String Bool) : Nat :=
  match outcome with
  | Except.ok _ => 0
  | Except.error _ => 1

/-- The overall verdict of the shared tester (`sharedsubtester.js` lines
381, 415-419): pass when every group passes. -/
def sharedOverallPass (groupMaps : List (List (List Char × List (List Char))))
    (pubIds : List (List Char)) (m : Nat) : Bool :=
  groupMaps.all (fun gm => sharedGroupPass gm pubIds m)

/-- The sequence of values the shared publish counter takes at the trigger
check (`inflighttester.js` lines 281-298): `publishedCount` starts at 0 and
is incremented once before each check, so across the run the checks observe
`1, 2, ..., totalMessages` (JavaScript's event loop serializes the
increments of the parallel publisher tasks). -/
def inflightPublishCheckValues (total : Nat) : List Nat :=
  List.range' 1 total

/-- The number of times the inflight fault injection fires during the
publish phase (`inflighttester.js` lines 281-303): the check is
`!halfwayTriggered && publishedCount === halfwayCount`, where
`halfwayCount = Math.floor(totalMessages / 5)` and `halfwayTriggered` is set
on the first firing. -/
def inflightFaultInjections (total : Nat) : Nat :=
  ((inflightPublishCheckValues total).foldl
    (fun st k =>
      if st.2 = false ∧ k = total / 5 then (st.1 + 1, true) else st)
    ((0 : Nat), false)).1

/-- The packet kinds a subscriber client's `packetreceive` listener can see
during the subscribe barrier (`inflighttester.js` lines 224-235). -/
inductive PacketCmd
  | suback
  | connack
  | puback
  | publishPkt
  | other
deriving DecidableEq

/-- State of one subscriber's subscribe-barrier promise after a finite
sequence of received packets (`inflighttester.js` lines 225-235,
`sharedsubtester.js` lines 232-242): the promise starts pending (`false`)
and resolves (`true`) when a SUBACK packet arrives; no other transition
exists — in particular there is no timer. -/
def subBarrierResolved (packets : List PacketCmd) : Bool :=
  packets.foldl (fun resolved pk => resolved || pk = PacketCmd.suback) false

/-- Events a publisher client emits that the connect barrier listens to
(`inflighttester.js` lines 264-271, `sharedsubtester.js` lines 274-281). -/
inductive ClientEvent
  | connectEv
  | reconnectEv
  | closeEv
  | errorEv
deriving DecidableEq

/-- State of one publisher's connect-barrier promise after a finite sequence
of client events: it resolves when a `connect` event fires and has no other
transition — again, no timer. -/
def connBarrierResolved (events : List ClientEvent) : Bool :=
  events.foldl (fun resolved ev => resolved || ev = ClientEvent.connectEv) false

/-- The externally visible events of a run used for ordering claims: an
acknowledged subscription (SUBACK), an acknowledged publisher connection
(CONNACK), and an issued publish operation. -/
inductive RunEvent
  | subackEv (clientId : List Char)
  | connackEv (clientId : List Char)
  | publishEv (clientId : List Char) (seq : Nat)
deriving DecidableEq

/-- The SUBACK events of an inflight run, one per subscriber
(`inflighttester.js` lines 224-236). -/
def inflightSubackEvents (c : InflightConfig) : List RunEvent :=
  (List.range c.subs).map (fun i => RunEvent.subackEv (subIdChars i))

/-- The publisher CONNACK events of an inflight run (`inflighttester.js`
lines 264-272). -/
def inflightConnackEvents (c : InflightConfig) : List RunEvent :=
  (List.range c.publishers).map (fun p => RunEvent.connackEv (pubIdChars p))

/-- The publish events of an inflight run (`inflighttester.js` lines
285-295). -/
def inflightPublishEvents (c : InflightConfig) : List RunEvent :=
  (List.range c.publishers).flatMap (fun p =>
    (List.range' 1 c.messagesPerPub).map
      (fun q => RunEvent.publishEv (pubIdChars p) q))

/-- The possible event traces of `runInflightTest` up to the end of the
publish phase: the `await Promise.all` barriers at `inflighttester.js` lines
225-235 and 265-271 force every SUBACK before every publisher CONNACK and
every CONNACK before every publish; within each phase the arrival order is
arbitrary (any permutation, which over-approximates the concurrent
interleavings of the parallel publisher loops). -/
def IsInflightTrace (c : InflightConfig) (t : List RunEvent) : Prop :=
  ∃ s k p, t = s ++ k ++ p ∧ s.Perm (inflightSubackEvents c) ∧
    k.Perm (inflightConnackEvents c) ∧ p.Perm (inflightPublishEvents c)

/-- The SUBACK events of a shared run, one per group member
(`sharedsubtester.js` lines 231-242). -/
def sharedSubackEvents (c : SharedConfig) : List RunEvent :=
  (List.range c.groups).flatMap (fun g =>
    (List.range c.subsPerGroup).map
      (fun s => RunEvent.subackEv (sharedSubClientId g s)))

/-- The publisher CONNACK events of a shared run (`sharedsubtester.js` lines
274-281). -/
def sharedConnackEvents (c : SharedConfig) : List RunEvent :=
  (List.range c.publishers).map (fun p => RunEvent.connackEv (pubIdChars p))

/-- The publish events of a shared run (`sharedsubtester.js` lines
294-303). -/
def sharedPublishEvents (c : SharedConfig) : List RunEvent :=
  (List.range c.publishers).flatMap (fun p =>
    (List.range' 1 c.messagesPerPub).map
      (fun q => RunEvent.publishEv (pubIdChars p) q))

/-- The possible event traces of `runSharedSubscriptionTest` up to the end
of the publish phase, with the same barrier structure (`sharedsubtester.js`
lines 232-242 and 275-281). -/
def IsSharedTrace (c : SharedConfig) (t : List RunEvent) : Prop :=
  ∃ s k p, t = s ++ k ++ p ∧ s.Perm (sharedSubackEvents c) ∧
    k.Perm (sharedConnackEvents c) ∧ p.Perm (sharedPublishEvents c)

/-- A minimal inflight configuration for the C6 witness. -/
def exInflightCfg : InflightConfig :=
  { defaultInflightConfig with subs := 1, publishers := 1, messagesPerPub := 1 }

/-- A minimal shared configuration for the C6 witness. -/
def exSharedCfg : SharedConfig :=
  { defaultSharedConfig with
    groups := 1
    subsPerGroup := 1
    publishers := 1
    messagesPerPub := 1 }

/-- The unique trace of the minimal inflight configuration. -/
def exInflightTrace : List RunEvent :=
  [RunEvent.subackEv (subIdChars 0), RunEvent.connackEv (pubIdChars 0),
   RunEvent.publishEv (pubIdChars 0) 1]

/-- The unique trace of the minimal shared configuration. -/
def exSharedTrace : List RunEvent :=
  [RunEvent.subackEv (sharedSubClientId 0 0), RunEvent.connackEv (pubIdChars 0),
   RunEvent.publishEv (pubIdChars 0) 1]

theorem toDecimalAux_ne_nil (fuel n : Nat) : toDecimalAux (fuel + 1) n ≠ [] := by
  unfold toDecimalAux
  by_cases h : n < 10 <;> simp [h]

theorem natToDecimal_ne_nil (n : Nat) : natToDecimal n ≠ [] :=
  toDecimalAux_ne_nil n n

theorem digitChar_isDigit (n : Nat) : (digitChar n).isDigit = true := by
  unfold digitChar
  split <;> decide

theorem mem_toDecimalAux_isDigit (fuel : Nat) :
    ∀ n c, c ∈ toDecimalAux fuel n → c.isDigit = true := by
  induction fuel with
  | zero => intro n c h; simp [toDecimalAux] at h
  | succ fuel ih =>
    intro n c h
    unfold toDecimalAux at h
    by_cases h10 : n < 10
    · simp [h10] at h
      subst h
      exact digitChar_isDigit n
    · simp [h10, List.mem_append] at h
      rcases h with h | h
      · exact ih _ _ h
      · subst h
        exact digitChar_isDigit (n % 10)

theorem mem_natToDecimal_isDigit (n : Nat) (c : Char) (h : c ∈ natToDecimal n) :
    c.isDigit = true :=
  mem_toDecimalAux_isDigit (n + 1) n c h

theorem isDigit_not_isWhitespace (c : Char) (h : c.isDigit = true) :
    c.isWhitespace = false := by
  by_contra hw
  rw [Bool.not_eq_false] at hw
  simp only [Char.isWhitespace, Bool.or_eq_true, decide_eq_true_eq] at hw
  rcases hw with ((hc | hc) | hc) | hc <;> (subst hc; exact absurd h (by decide))

theorem dropLeading_self_append (p r : List Char) :
    dropLeading p (p ++ r) = some r := by
  induction p with
  | nil => rfl
  | cons a t ih => simp [dropLeading, ih]

theorem takeWhile_append_stop {p : Char → Bool} (l r : List Char) (x : Char)
    (hl : ∀ c ∈ l, p c = true) (hx : p x = false) :
    (l ++ x :: r).takeWhile p = l ∧ (l ++ x :: r).dropWhile p = x :: r := by
  induction l with
  | nil =>
    constructor
    · simp [List.takeWhile_cons, hx]
    · simp [List.dropWhile_cons, hx]
  | cons a t ih =>
    have ha : p a = true := hl a (List.mem_cons_self a t)
    have ht := ih (fun c hc => hl c (List.mem_cons_of_mem a hc))
    constructor
    · simpa [List.takeWhile_cons, ha] using ht.1
    · simpa [List.dropWhile_cons, ha] using ht.2

theorem trimChars_payloadFor (pubId : List Char) (seq : Nat) :
    trimChars (payloadFor pubId seq) = payloadFor pubId seq := by
  have hleft : (payloadFor pubId seq).dropWhile Char.isWhitespace =
      payloadFor pubId seq := by
    have : payloadFor pubId seq =
        'M' :: (['S', 'G', ' ', 'f', 'r', 'o', 'm', ' '] ++ pubId ++
          ' ' :: '#' :: natToDecimal seq) := by
      simp [payloadFor, msgFromChars]
    rw [this]
    exact List.dropWhile_cons_of_neg (by decide)
  obtain ⟨c, l', hrev⟩ : ∃ c l', (natToDecimal seq).reverse = c :: l' := by
    cases hr : (natToDecimal seq).reverse with
    | nil => exact absurd (List.reverse_eq_nil_iff.mp hr) (natToDecimal_ne_nil seq)
    | cons c l' => exact ⟨c, l', rfl⟩
  have hcmem : c ∈ natToDecimal seq := by
    have : c ∈ (natToDecimal seq).reverse := by
      rw [hrev]; exact List.mem_cons_self c l'
    rwa [List.mem_reverse] at this
  have hcw : c.isWhitespace = false :=
    isDigit_not_isWhitespace c (mem_natToDecimal_isDigit seq c hcmem)
  have hsplit : (payloadFor pubId seq).reverse =
      c :: (l' ++ '#' :: ' ' :: (pubId.reverse ++ msgFromChars.reverse)) := by
    simp [payloadFor, List.reverse_append, hrev]
  unfold trimChars
  rw [hleft, hsplit, List.dropWhile_cons_of_neg (by simp [hcw]), ← hsplit,
    List.reverse_reverse]

theorem parsePayload_payloadFor (ds : List Char) (seq : Nat)
    (hne : ds ≠ []) (hdig : ∀ c ∈ ds, c.isDigit = true) :
    parsePayload (payloadFor (pubDashChars ++ ds) seq) =
      some (pubDashChars ++ ds, natToDecimal seq) := by
  have hassoc : payloadFor (pubDashChars ++ ds) seq =
      (msgFromChars ++ pubDashChars) ++ (ds ++ ' ' :: '#' :: natToDecimal seq) := by
    simp [payloadFor]
  have hsplit := takeWhile_append_stop (p := Char.isDigit) ds
    ('#' :: natToDecimal seq) ' ' hdig (by decide)
  have hdec : ∀ c ∈ natToDecimal seq, Char.isDigit c = true :=
    fun c hc => mem_natToDecimal_isDigit seq c hc
  have htake2 : (natToDecimal seq).takeWhile Char.isDigit = natToDecimal seq :=
    List.takeWhile_eq_self_iff.mpr hdec
  have hdrop2 : (natToDecimal seq).dropWhile Char.isDigit = [] :=
    List.dropWhile_eq_nil_iff.mpr hdec
  rw [hassoc]
  unfold parsePayload
  rw [dropLeading_self_append]
  simp only [hsplit.1, hsplit.2, htake2, hdrop2, List.isEmpty_nil,
    if_true, List.isEmpty_eq_false.mpr hne, List.isEmpty_eq_false.mpr
    (natToDecimal_ne_nil seq)]
  simp

/-- C4. Fingerprint round-trip: for every publisher identity `pub-<digits>`
and every sequence number `seq ≥ 1`, the payload `MSG from <pub> #<seq>`
built by the publisher, once trimmed and parsed by the subscriber's message
handler pattern `^MSG from (pub-\d+) #(\d+)$`, yields back exactly the
original publisher identity and sequence, so the handler records exactly the
ledger key `<pub>:<seq>`. -/
theorem fingerprint_roundtrip (ds : List Char) (seq : Nat)
    (received : List (List Char))
    (hne : ds ≠ []) (hdig : ∀ c ∈ ds, c.isDigit = true) (hseq : 1 ≤ seq) :
    parsePayload (trimChars (payloadFor (pubDashChars ++ ds) seq)) =
      some (pubDashChars ++ ds, natToDecimal seq) ∧
    handleMessage received (payloadFor (pubDashChars ++ ds) seq) =
      recordKey received ((pubDashChars ++ ds) ++ ':' :: natToDecimal seq) := by
  have hparse := parsePayload_payloadFor ds seq hne hdig
  have htrim := trimChars_payloadFor (pubDashChars ++ ds) seq
  constructor
  · rw [htrim, hparse]
  · unfold handleMessage
    simp only [htrim, hparse, fingerprintKey, List.append_assoc]

/-- Witness for C4 at `pub-0`, sequence 1, empty ledger. -/
theorem fingerprint_roundtrip_witness :
    parsePayload (trimChars (payloadFor (pubDashChars ++ ['0']) 1)) =
      some (pubDashChars ++ ['0'], natToDecimal 1) ∧
    handleMessage [] (payloadFor (pubDashChars ++ ['0']) 1) =
      recordKey [] ((pubDashChars ++ ['0']) ++ ':' :: natToDecimal 1) :=
  fingerprint_roundtrip ['0'] 1 []
    (by decide) (by intro c hc; simp at hc; subst hc; decide) (by decide)

theorem flatMap_const_length {α β : Type} (l : List α) (f : α → List β) (n : Nat)
    (h : ∀ a ∈ l, (f a).length = n) : (l.flatMap f).length = l.length * n := by
  induction l with
  | nil => simp
  | cons a t ih =>
    rw [List.flatMap_cons, List.length_append, h a (List.mem_cons_self a t),
      ih (fun b hb => h b (List.mem_cons_of_mem a hb)), List.length_cons,
      Nat.succ_mul]
    omega

theorem inflightRowsFor_length (sub : List Char) (received : List (List Char))
    (pubIds : List (List Char)) (m : Nat) :
    (inflightRowsFor sub received pubIds m).length = pubIds.length * m := by
  unfold inflightRowsFor
  exact flatMap_const_length _ _ m (fun pid _ => by simp)

theorem inflightSubPass_iff (received : List (List Char))
    (pubIds : List (List Char)) (m : Nat) :
    inflightSubPass received pubIds m = true ↔
      missingFor received (expectedUniverse pubIds m) = [] := by
  unfold inflightSubPass missingFor expectedUniverse missingByPublisher
  rw [List.all_eq_true, List.filter_eq_nil_iff]
  constructor
  · intro h f hf
    rw [List.mem_flatMap] at hf
    obtain ⟨pid, hpid, hf⟩ := hf
    rw [List.mem_map] at hf
    obtain ⟨seq, hseq, rfl⟩ := hf
    have := h pid hpid
    rw [List.isEmpty_iff, List.filter_eq_nil_iff] at this
    have := this seq hseq
    simpa using this
  · intro h pid hpid
    rw [List.isEmpty_iff, List.filter_eq_nil_iff]
    intro seq hseq
    have := h (fingerprintKey pid (natToDecimal seq))
      (List.mem_flatMap.mpr ⟨pid, hpid, List.mem_map.mpr ⟨seq, hseq, rfl⟩⟩)
    simpa using this

/-- C1. Non-shared verdict: a subscriber passes exactly when its missing set
against the expected universe is empty; the report has exactly
`numSubs * numPublishers * m` rows, exactly one row per
(subscriber, publisher, sequence) triple, and a row's status is `Pass`
exactly when that fingerprint is in the subscriber's received set. -/
theorem inflight_verdict_spec (numSubs numPublishers m : Nat)
    (ledger : List Char → List (List Char)) :
    (∀ received, inflightSubPass received (inflightPubIds numPublishers) m = true ↔
      missingFor received (expectedUniverse (inflightPubIds numPublishers) m) = []) ∧
    (inflightCsvRows numSubs numPublishers m ledger).length =
      numSubs * numPublishers * m ∧
    (inflightCsvRows numSubs numPublishers m ledger).map
        (fun r => (r.subscriber, r.publisher, r.index)) =
      (List.range numSubs).flatMap (fun i =>
        (List.range numPublishers).flatMap (fun p =>
          (List.range' 1 m).map (fun q => (subIdChars i, pubIdChars p, q)))) ∧
    (∀ r ∈ inflightCsvRows numSubs numPublishers m ledger,
      (r.status = RowStatus.pass ↔
        fingerprintKey r.publisher (natToDecimal r.index) ∈ ledger r.subscriber)) := by
  refine ⟨fun received => inflightSubPass_iff received _ m, ?_, ?_, ?_⟩
  · unfold inflightCsvRows
    rw [flatMap_const_length _ _ (numPublishers * m)
      (fun i _ => by
        rw [inflightRowsFor_length]
        simp [inflightPubIds])]
    simp [Nat.mul_assoc]
  · unfold inflightCsvRows inflightRowsFor inflightPubIds
    rw [List.map_flatMap]
    congr 1
    funext i
    rw [List.flatMap_map, List.map_flatMap]
    congr 1
    funext p
    rw [List.map_map]
    rfl
  · intro r hr
    unfold inflightCsvRows inflightRowsFor at hr
    rw [List.mem_flatMap] at hr
    obtain ⟨i, hi, hr⟩ := hr
    rw [List.mem_flatMap] at hr
    obtain ⟨pid, hpid, hr⟩ := hr
    rw [List.mem_map] at hr
    obtain ⟨seq, hseq, rfl⟩ := hr
    by_cases hmem :
        fingerprintKey pid (natToDecimal seq) ∈ ledger (subIdChars i) <;>
      simp [hmem]

/-- Witness for C1: the spec's end-to-end scenario shape (1 subscriber,
2 publishers, 10 messages each) with a ledger holding every fingerprint:
20 rows and a passing subscriber. -/
theorem inflight_verdict_spec_witness :
    (inflightCsvRows 1 2 10
      (fun _ => expectedUniverse (inflightPubIds 2) 10)).length = 1 * 2 * 10 ∧
    inflightSubPass (expectedUniverse (inflightPubIds 2) 10)
      (inflightPubIds 2) 10 = true := by
  have h := inflight_verdict_spec 1 2 10
    (fun _ => expectedUniverse (inflightPubIds 2) 10)
  refine ⟨h.2.1, ?_⟩
  rw [h.1 (expectedUniverse (inflightPubIds 2) 10)]
  decide

theorem recordKey_mem_self (received : List (List Char)) (k : List Char) :
    k ∈ recordKey received k := by
  unfold recordKey
  by_cases h : k ∈ received
  · simpa [h]
  · simp [h]

/-- C5. Idempotence of duplicate recording in non-shared mode: recording the
same fingerprint twice into a subscriber's received set yields the same set
as recording it once, so the missing-set computation and the subscriber's
verdict are unchanged. -/
theorem recordKey_idempotent (received : List (List Char)) (k : List Char)
    (pubIds : List (List Char)) (m : Nat) (expected : List (List Char)) :
    recordKey (recordKey received k) k = recordKey received k ∧
    missingFor (recordKey (recordKey received k) k) expected =
      missingFor (recordKey received k) expected ∧
    inflightSubPass (recordKey (recordKey received k) k) pubIds m =
      inflightSubPass (recordKey received k) pubIds m := by
  have h : recordKey (recordKey received k) k = recordKey received k := by
    rw [recordKey, if_pos (recordKey_mem_self received k)]
  exact ⟨h, by rw [h], by rw [h]⟩

/-- C2. Shared-mode verdict: a group passes exactly when every expected
payload `MSG from pub-<p> #<seq>` is a key of the group's receiver map and
every receiver list in the map has length exactly 1; any receiver list whose
length differs from 1 makes the group fail. -/
theorem shared_group_verdict_spec
    (recvMap : List (List Char × List (List Char)))
    (pubIds : List (List Char)) (m : Nat) :
    (sharedGroupPass recvMap pubIds m = true ↔
      ((∀ pid ∈ pubIds, ∀ seq ∈ List.range' 1 m,
        hasKey recvMap (payloadFor pid seq) = true) ∧
       (∀ e ∈ recvMap, e.2.length = 1))) ∧
    (∀ e ∈ recvMap, e.2.length ≠ 1 → sharedGroupPass recvMap pubIds m = false) ∧
    (sharedGroupPass recvMap pubIds m = true ↔
      (sharedGroupMissing recvMap pubIds m = [] ∧
       duplicatesInGroup recvMap = [])) := by
  have hmiss : sharedGroupMissing recvMap pubIds m = [] ↔
      ∀ pid ∈ pubIds, ∀ seq ∈ List.range' 1 m,
        hasKey recvMap (payloadFor pid seq) = true := by
    unfold sharedGroupMissing
    constructor
    · intro h pid hpid seq hseq
      by_contra hk
      have hmem : payloadFor pid seq ∈ pubIds.flatMap (fun pid =>
          ((List.range' 1 m).filter
            (fun seq => !(hasKey recvMap (payloadFor pid seq)))).map
            (fun seq => payloadFor pid seq)) := by
        rw [List.mem_flatMap]
        refine ⟨pid, hpid, List.mem_map.mpr ⟨seq, ?_, rfl⟩⟩
        rw [List.mem_filter]
        exact ⟨hseq, by simp [Bool.not_eq_true] at hk ⊢; exact hk⟩
      rw [h] at hmem
      exact absurd hmem (List.not_mem_nil _)
    · intro h
      rw [List.flatMap_eq_nil_iff]
      intro pid hpid
      rw [List.map_eq_nil_iff, List.filter_eq_nil_iff]
      intro seq hseq
      simp [h pid hpid seq hseq]
  have hdup : duplicatesInGroup recvMap = [] ↔
      ∀ e ∈ recvMap, e.2.length = 1 := by
    unfold duplicatesInGroup
    rw [List.map_eq_nil_iff, List.filter_eq_nil_iff]
    constructor
    · intro h e he
      have := h e he
      simpa using this
    · intro h e he
      simp [h e he]
  constructor
  · unfold sharedGroupPass
    rw [Bool.and_eq_true, List.isEmpty_iff, List.all_eq_true, hmiss]
    constructor
    · intro ⟨h1, h2⟩
      exact ⟨h1, fun e he => by simpa using h2 e he⟩
    · intro ⟨h1, h2⟩
      exact ⟨h1, fun e he => by simp [h2 e he]⟩
  constructor
  · intro e he hlen
    unfold sharedGroupPass
    rw [Bool.and_eq_false_iff]
    right
    rw [← Bool.not_eq_true, List.all_eq_true]
    intro hall
    have := hall e he
    simp at this
    exact hlen this
  · unfold sharedGroupPass
    rw [Bool.and_eq_true, List.isEmpty_iff, List.all_eq_true, hdup]
    constructor
    · intro ⟨h1, h2⟩
      exact ⟨h1, fun e he => by simpa using h2 e he⟩
    · intro ⟨h1, h2⟩
      exact ⟨h1, fun e he => by simp [h2 e he]⟩

/-- Witness for C2: the 1-publisher, 9-message scenario with every payload
received exactly once passes. -/
theorem shared_group_verdict_spec_witness :
    sharedGroupPass exSharedMap [pubIdChars 0] 9 = true :=
  (shared_group_verdict_spec exSharedMap [pubIdChars 0] 9).1.mpr
    ⟨by decide, by decide⟩

/-- C3 counterexample. The claim says the fault-injection fraction is a run
parameter. It is not: neither configuration surface carries a threshold
fraction, and the trigger counts are fully determined by
`publishers * messagesPerPub` alone — no two configurations that agree on
the publisher count and messages-per-publisher can disagree on the trigger
count, which a configurable fraction would allow. -/
theorem fault_threshold_not_configurable :
    (¬ ∃ c1 c2 : InflightConfig, c1.publishers = c2.publishers ∧
      c1.messagesPerPub = c2.messagesPerPub ∧
      inflightHalfwayCount c1 ≠ inflightHalfwayCount c2) ∧
    (¬ ∃ c1 c2 : SharedConfig, c1.publishers = c2.publishers ∧
      c1.messagesPerPub = c2.messagesPerPub ∧
      sharedHalfwayCount c1 ≠ sharedHalfwayCount c2) := by
  constructor
  · rintro ⟨c1, c2, hp, hm, hne⟩
    exact hne (by
      unfold inflightHalfwayCount inflightTotalMessages
      rw [hp, hm])
  · rintro ⟨c1, c2, hp, hm, hne⟩
    exact hne (by
      unfold sharedHalfwayCount sharedTotalMessages
      rw [hp, hm])

/-- C3 amended. The fault-injection trigger threshold is a fixed constant of
each program, not a run parameter: the inflight tester always triggers at
`floor(publishers * messagesPerPub / 5)` and the shared tester at
`floor(publishers * messagesPerPub / 2)`, so two configurations agreeing on
the publisher count and messages-per-publisher always share a trigger
count. -/
theorem fault_threshold_fixed_fraction (c1 c2 : InflightConfig)
    (d1 d2 : SharedConfig)
    (hp : c1.publishers = c2.publishers)
    (hm : c1.messagesPerPub = c2.messagesPerPub)
    (hq : d1.publishers = d2.publishers)
    (hn : d1.messagesPerPub = d2.messagesPerPub) :
    inflightHalfwayCount c1 = c1.publishers * c1.messagesPerPub / 5 ∧
    inflightHalfwayCount c1 = inflightHalfwayCount c2 ∧
    sharedHalfwayCount d1 = d1.publishers * d1.messagesPerPub / 2 ∧
    sharedHalfwayCount d1 = sharedHalfwayCount d2 := by
  refine ⟨rfl, ?_, rfl, ?_⟩
  · unfold inflightHalfwayCount inflightTotalMessages
    rw [hp, hm]
  · unfold sharedHalfwayCount sharedTotalMessages
    rw [hq, hn]

/-- Witness for the amended C3: two inflight configurations differing only in
QoS, and two shared configurations differing only in topic, share their
trigger counts. -/
theorem fault_threshold_fixed_fraction_witness :
    inflightHalfwayCount defaultInflightConfig =
      defaultInflightConfig.publishers *
        defaultInflightConfig.messagesPerPub / 5 ∧
    inflightHalfwayCount defaultInflightConfig =
      inflightHalfwayCount { defaultInflightConfig with qos := 1 } ∧
    sharedHalfwayCount defaultSharedConfig =
      defaultSharedConfig.publishers *
        defaultSharedConfig.messagesPerPub / 2 ∧
    sharedHalfwayCount defaultSharedConfig =
      sharedHalfwayCount { defaultSharedConfig with topic := "t" } :=
  fault_threshold_fixed_fraction defaultInflightConfig
    { defaultInflightConfig with qos := 1 } defaultSharedConfig
    { defaultSharedConfig with topic := "t" } rfl rfl rfl rfl

/-- C8. Setup validation: a configuration with fewer than one subscriber or
fewer than one publisher makes the run fatal — the error is logged and the
process exits with code 1, and the setup trace contains no ledger creation
and no subscriber or publisher connection. -/
theorem setup_validation_fatal (ci : InflightConfig) (cs : SharedConfig) :
    (ci.subs < 1 ∨ ci.publishers < 1 →
      inflightSetupActions ci =
        [SetupAction.logError inflightValidationMsg, SetupAction.exitProc 1] ∧
      (∀ a ∈ inflightSetupActions ci,
        (∀ n, a ≠ SetupAction.mkLedger n) ∧
        (∀ id, a ≠ SetupAction.connectSub id) ∧
        (∀ id, a ≠ SetupAction.connectPub id))) ∧
    (cs.subsPerGroup < 1 ∨ cs.publishers < 1 →
      sharedSetupActions cs =
        [SetupAction.logError sharedValidationMsg, SetupAction.exitProc 1] ∧
      (∀ a ∈ sharedSetupActions cs,
        (∀ n, a ≠ SetupAction.mkLedger n) ∧
        (∀ id, a ≠ SetupAction.connectSub id) ∧
        (∀ id, a ≠ SetupAction.connectPub id))) := by
  constructor
  · intro h
    have hc : (ci.subs < 1 || ci.publishers < 1) = true := by
      rcases h with h | h <;> simp [h]
    have heq : inflightSetupActions ci =
        [SetupAction.logError inflightValidationMsg, SetupAction.exitProc 1] := by
      unfold inflightSetupActions
      rw [if_pos hc]
    refine ⟨heq, ?_⟩
    rw [heq]
    intro a ha
    rw [List.mem_cons, List.mem_cons] at ha
    rcases ha with rfl | rfl | ha
    · exact ⟨fun n => by simp, fun id => by simp, fun id => by simp⟩
    · exact ⟨fun n => by simp, fun id => by simp, fun id => by simp⟩
    · simp at ha
  · intro h
    have hc : (cs.groups < 1 || cs.subsPerGroup < 1 || cs.publishers < 1) = true := by
      rcases h with h | h <;> simp [h]
    have heq : sharedSetupActions cs =
        [SetupAction.logError sharedValidationMsg, SetupAction.exitProc 1] := by
      unfold sharedSetupActions
      rw [if_pos hc]
    refine ⟨heq, ?_⟩
    rw [heq]
    intro a ha
    rw [List.mem_cons, List.mem_cons] at ha
    rcases ha with rfl | rfl | ha
    · exact ⟨fun n => by simp, fun id => by simp, fun id => by simp⟩
    · exact ⟨fun n => by simp, fun id => by simp, fun id => by simp⟩
    · simp at ha

/-- Witness for C8: zero subscribers (inflight) and zero publishers
(shared) both fail fast with exit code 1. -/
theorem setup_validation_fatal_witness :
    inflightSetupActions { defaultInflightConfig with subs := 0 } =
      [SetupAction.logError inflightValidationMsg, SetupAction.exitProc 1] ∧
    sharedSetupActions { defaultSharedConfig with publishers := 0 } =
      [SetupAction.logError sharedValidationMsg, SetupAction.exitProc 1] := by
  have h := setup_validation_fatal { defaultInflightConfig with subs := 0 }
    { defaultSharedConfig with publishers := 0 }
  exact ⟨(h.1 (Or.inl (by decide))).1, (h.2 (Or.inr (by decide))).1⟩

/-- C9. Exit-code semantics: a run that completes and produces a verdict
exits 0 even when the verdict is FAIL — in particular for any ledger or any
group receiver maps whose computed overall verdict is false — while a
non-zero exit (code 1) occurs only on a harness error. -/
theorem exit_code_semantics (numSubs numPublishers m : Nat)
    (ledger : List Char → List (List Char))
    (groupMaps : List (List (List Char × List (List Char))))
    (pubIds : List (List Char)) (msg : String) :
    inflightProcessExit
      (Except.ok (inflightOverallPass numSubs numPublishers m ledger)) = 0 ∧
    sharedProcessExit (Except.ok (sharedOverallPass groupMaps pubIds m)) = 0 ∧
    inflightProcessExit (Except.ok false) = 0 ∧
    sharedProcessExit (Except.ok false) = 0 ∧
    inflightProcessExit (Except.error msg) = 1 ∧
    sharedProcessExit (Except.error msg) = 1 :=
  ⟨rfl, rfl, rfl, rfl, rfl, rfl⟩

theorem foldl_trigger_count (t : Nat) (l : List Nat) :
    ∀ (acc : Nat × Bool),
      (l.foldl (fun st k =>
        if st.2 = false ∧ k = t then (st.1 + 1, true) else st) acc) =
      (acc.1 + (if acc.2 = false ∧ t ∈ l then 1 else 0),
       acc.2 || l.contains t) := by
  induction l with
  | nil => intro acc; simp
  | cons a l ih =>
    intro acc
    rw [List.foldl_cons, ih]
    by_cases ha : a = t
    · subst ha
      by_cases hb : acc.2 = false
      · simp [hb]
      · rw [Bool.not_eq_false] at hb
        simp [hb]
    · by_cases hb : acc.2 = false
      · by_cases hm : t ∈ l
        · simp [ha, hb, hm, Ne.symm ha]
        · simp [ha, hb, hm, Ne.symm ha]
      · rw [Bool.not_eq_false] at hb
        simp [ha, hb, Ne.symm ha]

/-- C10. The inflight fault-injection trigger: with
`halfwayCount = floor(totalMessages / 5)` compared for equality against a
publish counter whose checks observe `1..totalMessages`, the
disconnect/reconnect fault injection never fires when
`publishers * messagesPerPub < 5` and fires exactly once when
`publishers * messagesPerPub ≥ 5`. -/
theorem inflight_fault_injection_trigger (numPublishers messagesPerPub : Nat) :
    (numPublishers * messagesPerPub < 5 →
      inflightFaultInjections (numPublishers * messagesPerPub) = 0) ∧
    (5 ≤ numPublishers * messagesPerPub →
      inflightFaultInjections (numPublishers * messagesPerPub) = 1) := by
  set total := numPublishers * messagesPerPub with htot
  have hfold : inflightFaultInjections total =
      if total / 5 ∈ List.range' 1 total then 1 else 0 := by
    unfold inflightFaultInjections inflightPublishCheckValues
    rw [foldl_trigger_count]
    simp
  constructor
  · intro h
    have h5 : total / 5 = 0 := Nat.div_eq_of_lt h
    rw [hfold, h5]
    have : (0 : Nat) ∉ List.range' 1 total := by
      rw [List.mem_range']
      rintro ⟨i, _, hi⟩
      omega
    simp [this]
  · intro h
    have h1 : 1 ≤ total / 5 := (Nat.le_div_iff_mul_le (by norm_num)).mpr (by omega)
    have h2 : total / 5 ≤ total := Nat.div_le_self total 5
    have : total / 5 ∈ List.range' 1 total := by
      rw [List.mem_range']
      exact ⟨total / 5 - 1, by omega, by omega⟩
    rw [hfold]
    simp [this]

/-- Witness for C10: 2 publishers of 10 messages trigger exactly once;
1 publisher of 3 messages never triggers. -/
theorem inflight_fault_injection_trigger_witness :
    inflightFaultInjections (2 * 10) = 1 ∧
    inflightFaultInjections (1 * 3) = 0 :=
  ⟨(inflight_fault_injection_trigger 2 10).2 (by decide),
   (inflight_fault_injection_trigger 1 3).1 (by decide)⟩

theorem subBarrierResolved_iff (packets : List PacketCmd) :
    subBarrierResolved packets = true ↔ PacketCmd.suback ∈ packets := by
  unfold subBarrierResolved
  have key : ∀ (l : List PacketCmd) (b : Bool),
      (l.foldl (fun resolved pk => resolved || pk = PacketCmd.suback) b = true ↔
        (b = true ∨ PacketCmd.suback ∈ l)) := by
    intro l
    induction l with
    | nil => intro b; simp
    | cons a l ih =>
      intro b
      rw [List.foldl_cons, ih]
      by_cases ha : a = PacketCmd.suback
      · subst ha; simp
      · simp [ha, Ne.symm ha]
  rw [key]
  simp

theorem connBarrierResolved_iff (events : List ClientEvent) :
    connBarrierResolved events = true ↔ ClientEvent.connectEv ∈ events := by
  unfold connBarrierResolved
  have key : ∀ (l : List ClientEvent) (b : Bool),
      (l.foldl (fun resolved ev => resolved || ev = ClientEvent.connectEv) b = true ↔
        (b = true ∨ ClientEvent.connectEv ∈ l)) := by
    intro l
    induction l with
    | nil => intro b; simp
    | cons a l ih =>
      intro b
      rw [List.foldl_cons, ih]
      by_cases ha : a = ClientEvent.connectEv
      · subst ha; simp
      · simp [ha, Ne.symm ha]
  rw [key]
  simp

theorem subBarrier_replicate_pending (n : Nat) :
    subBarrierResolved (List.replicate n PacketCmd.connack) = false := by
  rw [← Bool.not_eq_true, subBarrierResolved_iff]
  intro h
  have := List.eq_of_mem_replicate h
  cases this

theorem connBarrier_replicate_pending (n : Nat) :
    connBarrierResolved (List.replicate n ClientEvent.closeEv) = false := by
  rw [← Bool.not_eq_true, connBarrierResolved_iff]
  intro h
  have := List.eq_of_mem_replicate h
  cases this

/-- C7 counterexample. The claim says every barrier wait has an explicit
timeout and fails fast when not reached. It does not: there is no bound `N`
after which the subscribe barrier (or the connect barrier) is guaranteed to
have left its pending state — an arbitrarily long acknowledgment-free packet
or event sequence leaves the barrier pending, and the barrier state space
has no timeout or failure outcome at all, so such a run hangs rather than
failing fast. -/
theorem barrier_wait_not_bounded :
    (¬ ∃ N, ∀ packets : List PacketCmd,
      N ≤ packets.length → subBarrierResolved packets = true) ∧
    (¬ ∃ N, ∀ events : List ClientEvent,
      N ≤ events.length → connBarrierResolved events = true) := by
  constructor
  · rintro ⟨N, h⟩
    have := h (List.replicate N PacketCmd.connack) (by simp)
    rw [subBarrier_replicate_pending N] at this
    cases this
  · rintro ⟨N, h⟩
    have := h (List.replicate N ClientEvent.closeEv) (by simp)
    rw [connBarrier_replicate_pending N] at this
    cases this

/-- C7 amended. The subscribe and connect barrier waits of both testers are
unbounded: each barrier promise resolves exactly when the awaited
acknowledgment (a SUBACK packet, resp. a connect event) appears in its
client's event sequence, and it has no timeout — without the acknowledgment
the barrier stays pending forever, for sequences of any length, so the run
hangs rather than failing fast. -/
theorem barrier_wait_unbounded (packets : List PacketCmd)
    (events : List ClientEvent) (n : Nat) :
    (subBarrierResolved packets = true ↔ PacketCmd.suback ∈ packets) ∧
    (connBarrierResolved events = true ↔ ClientEvent.connectEv ∈ events) ∧
    subBarrierResolved (List.replicate n PacketCmd.connack) = false ∧
    connBarrierResolved (List.replicate n ClientEvent.closeEv) = false :=
  ⟨subBarrierResolved_iff packets, connBarrierResolved_iff events,
   subBarrier_replicate_pending n, connBarrier_replicate_pending n⟩

theorem phase_trace_ordering (s k p : List RunEvent)
    (hs : ∀ e ∈ s, ∃ id, e = RunEvent.subackEv id)
    (hk : ∀ e ∈ k, ∃ id, e = RunEvent.connackEv id)
    (hp : ∀ e ∈ p, ∃ id q, e = RunEvent.publishEv id q) :
    ∀ (i j : Nat) (pid : List Char) (q : Nat) (sid : List Char),
      (s ++ k ++ p)[i]? = some (RunEvent.publishEv pid q) →
      (s ++ k ++ p)[j]? = some (RunEvent.subackEv sid) → j < i := by
  intro i j pid q sid hi hj
  have hjlt : j < s.length := by
    by_contra hge
    rw [Nat.not_lt] at hge
    rw [List.append_assoc, List.getElem?_append, if_neg (by omega)] at hj
    have hmem := List.getElem?_mem hj
    rw [List.mem_append] at hmem
    rcases hmem with hm | hm
    · obtain ⟨id, heq⟩ := hk _ hm
      cases heq
    · obtain ⟨id, q', heq⟩ := hp _ hm
      cases heq
  have hige : s.length + k.length ≤ i := by
    by_contra hlt
    rw [Nat.not_le] at hlt
    rw [List.getElem?_append,
      if_pos (by rw [List.length_append]; omega)] at hi
    have hmem := List.getElem?_mem hi
    rw [List.mem_append] at hmem
    rcases hmem with hm | hm
    · obtain ⟨id, heq⟩ := hs _ hm
      cases heq
    · obtain ⟨id, heq⟩ := hk _ hm
      cases heq
  omega

theorem mem_perm_shape {l pat : List RunEvent} (h : l.Perm pat)
    (hpat : ∀ e ∈ pat, ∃ id, e = RunEvent.subackEv id) :
    ∀ e ∈ l, ∃ id, e = RunEvent.subackEv id :=
  fun e he => hpat e (h.mem_iff.mp he)

/-- C6. Readiness-barrier ordering: in every possible trace of either
tester, every issued publish operation occurs strictly after every
subscriber's acknowledged subscription (SUBACK) — the subscriber-ready
barrier happens-before the first publish. -/
theorem readiness_barrier_ordering (ci : InflightConfig) (cs : SharedConfig)
    (t u : List RunEvent) (ht : IsInflightTrace ci t) (hu : IsSharedTrace cs u) :
    (∀ (i j : Nat) (pid : List Char) (q : Nat) (sid : List Char),
      t[i]? = some (RunEvent.publishEv pid q) →
      t[j]? = some (RunEvent.subackEv sid) → j < i) ∧
    (∀ (i j : Nat) (pid : List Char) (q : Nat) (sid : List Char),
      u[i]? = some (RunEvent.publishEv pid q) →
      u[j]? = some (RunEvent.subackEv sid) → j < i) := by
  constructor
  · obtain ⟨s, k, p, rfl, hs, hk, hp⟩ := ht
    apply phase_trace_ordering
    · intro e he
      have := hs.mem_iff.mp he
      rw [inflightSubackEvents, List.mem_map] at this
      obtain ⟨i, _, rfl⟩ := this
      exact ⟨subIdChars i, rfl⟩
    · intro e he
      have := hk.mem_iff.mp he
      rw [inflightConnackEvents, List.mem_map] at this
      obtain ⟨i, _, rfl⟩ := this
      exact ⟨pubIdChars i, rfl⟩
    · intro e he
      have := hp.mem_iff.mp he
      rw [inflightPublishEvents, List.mem_flatMap] at this
      obtain ⟨i, _, hmem⟩ := this
      rw [List.mem_map] at hmem
      obtain ⟨q', _, rfl⟩ := hmem
      exact ⟨pubIdChars i, q', rfl⟩
  · obtain ⟨s, k, p, rfl, hs, hk, hp⟩ := hu
    apply phase_trace_ordering
    · intro e he
      have := hs.mem_iff.mp he
      rw [sharedSubackEvents, List.mem_flatMap] at this
      obtain ⟨g, _, hmem⟩ := this
      rw [List.mem_map] at hmem
      obtain ⟨s', _, rfl⟩ := hmem
      exact ⟨sharedSubClientId g s', rfl⟩
    · intro e he
      have := hk.mem_iff.mp he
      rw [sharedConnackEvents, List.mem_map] at this
      obtain ⟨i, _, rfl⟩ := this
      exact ⟨pubIdChars i, rfl⟩
    · intro e he
      have := hp.mem_iff.mp he
      rw [sharedPublishEvents, List.mem_flatMap] at this
      obtain ⟨i, _, hmem⟩ := this
      rw [List.mem_map] at hmem
      obtain ⟨q', _, rfl⟩ := hmem
      exact ⟨pubIdChars i, q', rfl⟩

/-- Witness for C6: in the minimal traces the SUBACK at position 0 precedes
the publish at position 2. -/
theorem readiness_barrier_ordering_witness : (0 : Nat) < 2 ∧ (0 : Nat) < 2 := by
  have h := readiness_barrier_ordering exInflightCfg exSharedCfg
    exInflightTrace exSharedTrace
    ⟨[RunEvent.subackEv (subIdChars 0)], [RunEvent.connackEv (pubIdChars 0)],
      [RunEvent.publishEv (pubIdChars 0) 1], rfl, by decide, by decide, by decide⟩
    ⟨[RunEvent.subackEv (sharedSubClientId 0 0)],
      [RunEvent.connackEv (pubIdChars 0)],
      [RunEvent.publishEv (pubIdChars 0) 1], rfl, by decide, by decide, by decide⟩
  exact ⟨h.1 2 0 (pubIdChars 0) 1 (subIdChars 0) (by decide) (by decide),
         h.2 2 0 (pubIdChars 0) 1 (sharedSubClientId 0 0) (by decide) (by decide)⟩
